import Mathlib

/-!
Verification of the concurrent git operation engine of `src/tool.py`.

The Python source is shallowly embedded: strings are `List Char`, wall-clock
times and counters are `ℚ` (seconds, exactly as `time.time()` differences are
compared against `0.5`), fallible backend calls (GitPython) are
`Except GitErr _` values supplied through an explicit `Backend` record, and
every `self.signals.result.emit` / `self.signals.error.emit` of the worker
becomes one `Notification` value in the list the embedded `run` returns.
-/

namespace GitTool

/-- Python `pat in hay` substring test on strings, over `List Char`. -/
def containsSub (pat : List Char) : List Char → Bool
  | [] => pat.isEmpty
  | c :: cs => pat.isPrefixOf (c :: cs) || containsSub pat cs

/-- Python `str.split(sep)` for a one-character separator: `splitOnChar sep l`
never returns `[]`; splitting the empty string yields `[[]]`, exactly as
`"".split(sep) == ['']`. -/
def splitOnChar (sep : Char) : List Char → List (List Char)
  | [] => [[]]
  | c :: cs =>
    if c = sep then [] :: splitOnChar sep cs
    else
      match splitOnChar sep cs with
      | [] => [[c]]
      | g :: gs => (c :: g) :: gs

/-- Python `sep.join(groups)` for a one-character separator. -/
def joinChar (sep : Char) : List (List Char) → List Char
  | [] => []
  | [g] => g
  | g :: gs => g ++ sep :: joinChar sep gs

/-! ## Status parsing (`GitWorker.run`, the `"status"` branch, lines 73-91) -/

/-- The file-state categories of the status table. The source displays them as
the strings 未跟踪 / 已暂存 / 修改 / 删除 / 未暂存; we name them
untracked / staged / modified / deleted / unstaged as the spec does. -/
inductive FileCategory
  | untracked
  | staged
  | modified
  | deleted
  | unstaged
deriving DecidableEq

/-- One iteration of the porcelain-status loop of `GitWorker.run` (lines
76-90): a line that is blank after `strip()` is skipped (`none`); a line
starting with `??` maps to untracked with path `line[3:]`; otherwise the
first character `line[0]` selects the category and the path is `line[3:]`.
The third component is the display glyph the source attaches. -/
def parseStatusLine (line : List Char) : Option (FileCategory × List Char × Char) :=
  if line.any (fun ch => !ch.isWhitespace) then
    if ['?', '?'].isPrefixOf line then some (.untracked, line.drop 3, '➕')
    else
      match line with
      | [] => none
      | c :: _ =>
        if c = 'A' then some (.staged, line.drop 3, '✅')
        else if c = 'M' then some (.modified, line.drop 3, '📝')
        else if c = 'D' then some (.deleted, line.drop 3, '❌')
        else some (.unstaged, line.drop 3, '📝')
  else none

/-- The whole `"status"` branch: split raw porcelain output on newlines and
parse each non-blank line. -/
def statusRows (raw : List Char) : List (FileCategory × List Char × Char) :=
  (splitOnChar '\n' raw).filterMap parseStatusLine

/-! ## Branch resolver (`GitManager.switch_branch`, lines 1183-1210) -/

/-- The resolved checkout action for a remote-tracking reference. -/
inductive ResolvedCheckout
  | plain (branch : List Char)
  | createTracking (branch : List Char) (remoteRef : List Char)
deriving DecidableEq

/-- Lines 1187-1190 of `switch_branch`: if the selected name contains `/`,
strip the leading remote segment — `'/'.join(branch_name.split('/')[1:])`. -/
def stripRemote (name : List Char) : List Char :=
  if name.any (fun c => c == '/') then joinChar '/' (splitOnChar '/' name).tail
  else name

/-- Lines 1183-1210 of `switch_branch` for a reference tagged as remote:
derive the candidate local name by `stripRemote`; if a local branch with that
exact name exists, check it out plainly, otherwise create a tracking branch
via `checkout -b <candidate> <remoteRef>`. -/
def resolveRemoteRef (branchName : List Char) (localBranches : List (List Char)) :
    ResolvedCheckout :=
  let actual := stripRemote branchName
  if actual ∈ localBranches then .plain actual
  else .createTracking actual branchName

/-! ## Error classification (`GitManager.handle_git_error`, lines 1020-1058) -/

def conflictPhraseA : List Char :=
  "Your local changes to the following files would be overwritten by checkout".toList

def conflictPhraseB : List Char :=
  "Please commit your changes or stash them before you switch branches".toList

def upstreamPhrase : List Char := "has no upstream branch".toList

/-- The closed error taxonomy selected by the branches of `handle_git_error`. -/
inductive ErrorKind
  | checkoutConflict
  | noUpstreamBranch
  | genericFailure
deriving DecidableEq

/-- Which branch of `handle_git_error` a raw failure message selects:
first the checkout-conflict dialog (both conflict phrases present, line 1025),
then the no-upstream dialog (line 1040), else the generic failure dialog. -/
def classify (msg : List Char) : ErrorKind :=
  if containsSub conflictPhraseA msg && containsSub conflictPhraseB msg then
    .checkoutConflict
  else if containsSub upstreamPhrase msg then .noUpstreamBranch
  else .genericFailure

/-! ## Progress throttle (`GitProgressHandler.update`, lines 22-42) -/

/-- A progress event as emitted on the `progress` signal: the source sends a
formatted string; the counted form sends `f"进度: {percentage:.1f}%"` where
`percentage = cur_count / max_count * 100` (we carry that exact rational; the
one-decimal rendering is presentation), and the bare form sends 处理中... -/
inductive ProgressEvent
  | message (m : List Char)
  | percentage (p : ℚ)
  | generic
deriving DecidableEq

/-- The handler state: `self.last_update`, initialised to `0`. -/
structure ThrottleState where
  last_update : ℚ
deriving DecidableEq

/-- One raw backend callback `update(op_code, cur_count, max_count, message)`
together with the wall-clock instant `time.time()` at which it arrives. -/
structure RawCall where
  t : ℚ
  cur : ℚ
  total? : Option ℚ
  msg : List Char
deriving DecidableEq

/-- The event body chosen at lines 35-41: a non-empty message wins, else a
percentage when `max_count` is truthy and positive, else the generic marker. -/
def progressEventOf (cur : ℚ) (total? : Option ℚ) (msg : List Char) : ProgressEvent :=
  if msg ≠ [] then .message msg
  else
    match total? with
    | some m => if 0 < m then .percentage (cur / m * 100) else .generic
    | none => .generic

/-- `GitProgressHandler.update`: emit iff `current_time - last_update > 0.5`
or the message is non-empty; every emission sets `last_update` to the call
time; otherwise the state is untouched and nothing is emitted. -/
def progressUpdate (s : ThrottleState) (c : RawCall) :
    ThrottleState × Option ProgressEvent :=
  if c.t - s.last_update > 1 / 2 ∨ c.msg ≠ [] then
    (⟨c.t⟩, some (progressEventOf c.cur c.total? c.msg))
  else (s, none)

/-- Feed a whole callback stream through the handler, collecting each emitted
event with the time at which it was emitted. -/
def runThrottle (s : ThrottleState) : List RawCall → ThrottleState × List (ℚ × ProgressEvent)
  | [] => (s, [])
  | c :: cs =>
    let u := progressUpdate s c
    let r := runThrottle u.1 cs
    match u.2 with
    | none => r
    | some e => (r.1, (c.t, e) :: r.2)

/-- Whether an event is the textual-milestone form. -/
def isMsgEvent : ProgressEvent → Bool
  | .message _ => true
  | _ => false

/-! ## The worker (`GitWorker.run`, lines 62-321)

Each backend interaction of the `try` body is a field of a `Backend` record
returning `Except GitErr _`: `.error` models the Python call raising. An
`.error (.gitCommand _)` models `GitCommandError` (caught by the inner
`except GitCommandError` handlers of the push branches); `.error (.other _)`
models any other exception, caught only by the outer handler at line 320. -/

/-- An exception raised by a backend call. -/
inductive GitErr
  | gitCommand (msg : List Char)
  | other (msg : List Char)
deriving DecidableEq

/-- Python `str(e)` on the exception. -/
def GitErr.str : GitErr → List Char
  | .gitCommand m => m
  | .other m => m

/-- One value of the heterogeneous `self.args` tuple. -/
inductive Arg
  | s (v : List Char)
  | b (v : Bool)
deriving DecidableEq

/-- Python `str()` conversion applied when an argument reaches a git call. -/
def Arg.asStr : Arg → List Char
  | .s v => v
  | .b v => if v then "True".toList else "False".toList

/-- Python truthiness of an argument. -/
def Arg.truthy : Arg → Bool
  | .s v => !v.isEmpty
  | .b v => v

/-- `self.args[i]`: raises `IndexError` past the end, caught by the outer
handler. -/
def getArg (args : List Arg) (i : Nat) : Except GitErr Arg :=
  match args.get? i with
  | some a => .ok a
  | none => .error (.other ("tuple index out of range".toList))

/-- A commit as surfaced by `repo.iter_commits` (the fields `GitWorker.run`
reads; `dateFmt` is the already-formatted `strftime` text). -/
structure CommitRec where
  hexsha : List Char
  summary : List Char
  authorName : List Char
  dateFmt : List Char
deriving DecidableEq

/-- A commit as surfaced by `repo.commit(hash)`, with its parent hashes. -/
structure CommitObj where
  hexsha : List Char
  summary : List Char
  authorName : List Char
  dateFmt : List Char
  parents : List (List Char)
deriving DecidableEq

/-- The commit dictionary built by the `log` and `show_commit` branches. -/
structure CommitInfo where
  hash : List Char
  message : List Char
  author : List Char
  date : List Char
  full_hash : List Char
deriving DecidableEq

/-- One entry of `commit.diff(...)`; a missing `b_path` (Python `None` or the
empty string, both falsy) is the empty list. -/
structure DiffItem where
  a_path : List Char
  b_path : List Char
  change_type : List Char
deriving DecidableEq

/-- One entry of `files_changed` in the `show_commit` result. -/
structure FileInfo where
  path : List Char
  change_type : List Char
  diff : List Char
deriving DecidableEq

/-- The operation kinds dispatched on at lines 73-313. -/
inductive OpKind
  | status
  | log
  | branches
  | add
  | commit
  | push
  | pushWithUpstream
  | pull
  | checkout
  | createBranch
  | merge
  | cherryPick
  | showCommit
  | diff
  | checkoutFile
  | addRemote
  | deleteBranch
deriving DecidableEq

/-- The backend capability: every GitPython interaction the worker performs,
as a fallible value or function. -/
structure Backend where
  repoOpen : Except GitErr Unit
  gitStatus : Except GitErr (List Char)
  commits : Except GitErr (List CommitRec)
  localBranches : Except GitErr (List (List Char))
  activeBranchName : Except GitErr (List Char)
  remoteRefs : Except GitErr (List (List Char))
  gitAdd : Except GitErr Unit
  gitCommit : List Char → Except GitErr Unit
  config1 : Except GitErr Unit
  config2 : Except GitErr Unit
  originRemote : Except GitErr Unit
  pushCall : Except GitErr Unit
  pushUpstreamCall : List Char → Except GitErr Unit
  pullCall : Bool → Bool → Except GitErr Unit
  checkoutNew : List Char → List Char → Except GitErr Unit
  checkoutRef : List Char → Except GitErr Unit
  checkoutB : List Char → Except GitErr Unit
  gitMerge : List Char → Except GitErr Unit
  cherryPickCall : List Char → Except GitErr Unit
  commitLookup : List Char → Except GitErr CommitObj
  commitDiff : Option (List Char) → Except GitErr (List DiffItem)
  gitDiffRange : List Char → List Char → List Char → Except GitErr (List Char)
  gitShow : List Char → Except GitErr (List Char)
  gitDiffHead : List Char → Except GitErr (List Char)
  checkoutFileCall : List Char → Except GitErr Unit
  createRemote : List Char → List Char → Except GitErr Unit
  branchDelete : Bool → List Char → Except GitErr Unit

/-- The kind-specific result payloads of `result.emit`. -/
inductive ResultVal
  | statusList (rows : List (FileCategory × List Char × Char))
  | logList (entries : List CommitInfo)
  | branchInfo (localBranches : List (List Char)) (remoteBranches : List (List Char))
      (activeBranch : List Char)
  | text (msg : List Char)
  | commitDetail (commit : CommitInfo) (files : List FileInfo)
deriving DecidableEq

/-- A terminal notification of the worker: one `result.emit` or one
`error.emit` (progress emissions are modelled separately by the throttle and
are not terminal). -/
inductive Notification
  | result (v : ResultVal)
  | error (msg : List Char)
deriving DecidableEq

/-- Line 140: `message = self.args[0] if self.args else "Update"`. -/
def commitMessage (args : List Arg) : List Char :=
  match args with
  | [] => "Update".toList
  | a :: _ => a.asStr

/-- Line 199: `rebase = self.args[0] if len(self.args) > 0 else True`. -/
def pullRebaseArg (args : List Arg) : Arg :=
  (args.get? 0).getD (.b true)

/-- Line 200: `prune = self.args[1] if len(self.args) > 1 else True`. -/
def pullPruneArg (args : List Arg) : Arg :=
  (args.get? 1).getD (.b true)

/-- The filter of the `branches` branch (lines 121-128): keep a remote ref
name unless it ends in `/HEAD`; it must contain `/` and not start with
`origin/HEAD`. -/
def remoteBranchFilter (name : List Char) : Bool :=
  !("/HEAD".toList.isSuffixOf name)
    && (name.any (fun c => c == '/') && !("origin/HEAD".toList.isPrefixOf name))

/-- The reworded no-upstream error built at lines 164-166 of the `push`
branch. -/
def noUpstreamReword (cur : List Char) : List Char :=
  "分支 \x27".toList ++ cur
    ++ "\x27 没有设置上游分支。\n请使用 \x27git push --set-upstream origin ".toList ++ cur
    ++ "\x27 命令设置上游分支，或者在界面中选择相应选项。".toList

/-- `b_path or a_path` of a diff item (Python `or` on strings: an empty or
missing `b_path` falls back to `a_path`). -/
def pathOf (d : DiffItem) : List Char :=
  if d.b_path.isEmpty then d.a_path else d.b_path

/-- The placeholder diff text of the per-path failure handler (line 273). -/
def diffFailMsg (e : GitErr) : List Char :=
  "无法获取差异信息: ".toList ++ e.str

/-- The commit dictionary built at lines 278-284. -/
def commitInfoOf (c : CommitObj) : CommitInfo :=
  ⟨c.hexsha.take 7, c.summary, c.authorName, c.dateFmt, c.hexsha⟩

/-- Lines 252-275: one iteration of the `files_changed` loop. With a parent
the entry text is `repo.git.diff(parent, commit, '--', path)`; for a root
commit it is `repo.git.show(f"hexsha:path")`; a failure of that single call
is caught and replaced by the placeholder, keeping the entry. -/
def buildFileInfo (b : Backend) (c : CommitObj) (d : DiffItem) : FileInfo :=
  match c.parents.head? with
  | some par =>
    match b.gitDiffRange par c.hexsha (pathOf d) with
    | .ok t => ⟨pathOf d, d.change_type, t⟩
    | .error e => ⟨pathOf d, d.change_type, diffFailMsg e⟩
  | none =>
    match b.gitShow (c.hexsha ++ ':' :: pathOf d) with
    | .ok t => ⟨pathOf d, d.change_type, t⟩
    | .error e => ⟨pathOf d, d.change_type, diffFailMsg e⟩

/-- Lines 73-91, the `status` branch. -/
def runStatus (b : Backend) : Except GitErr (List Notification) :=
  (b.gitStatus).bind fun raw => .ok [.result (.statusList (statusRows raw))]

/-- Lines 93-104, the `log` branch: at most 20 commits, each mapped to the
dictionary with the 7-character short hash. -/
def runLog (b : Backend) : Except GitErr (List Notification) :=
  (b.commits).bind fun cs =>
    .ok [.result (.logList ((cs.take 20).map fun c =>
      ⟨c.hexsha.take 7, c.summary, c.authorName, c.dateFmt, c.hexsha⟩))]

/-- Lines 106-133, the `branches` branch: a failure while listing remote refs
is swallowed (remote list stays empty); a failure of `repo.branches` or
`repo.active_branch` propagates to the outer handler. -/
def runBranches (b : Backend) : Except GitErr (List Notification) :=
  (b.localBranches).bind fun locals =>
    (b.activeBranchName).bind fun active =>
      .ok [.result (.branchInfo locals
        (match b.remoteRefs with
         | .ok refs => refs.filter remoteBranchFilter
         | .error _ => []) active)]

/-- Lines 135-137, the `add` branch. -/
def runAdd (b : Backend) : Except GitErr (List Notification) :=
  (b.gitAdd).bind fun _ => .ok [.result (.text "所有文件已暂存".toList)]

/-- Lines 139-142, the `commit` branch. -/
def runCommit (args : List Arg) (b : Backend) : Except GitErr (List Notification) :=
  (b.gitCommit (commitMessage args)).bind fun _ =>
    .ok [.result (.text ("提交成功: ".toList ++ commitMessage args))]

/-- Lines 144-170, the `push` branch: two config calls, the remote lookup,
then the push; a `GitCommandError` mentioning the upstream phrase is reworded
(reading the active branch name, which may itself raise to the outer
handler), any other `GitCommandError` is emitted verbatim as the failure. -/
def runPush (b : Backend) : Except GitErr (List Notification) :=
  (b.config1).bind fun _ =>
    (b.config2).bind fun _ =>
      (b.originRemote).bind fun _ =>
        match b.pushCall with
        | .ok _ => .ok [.result (.text "推送成功".toList)]
        | .error (.gitCommand m) =>
          if containsSub upstreamPhrase m then
            (b.activeBranchName).bind fun cur => .ok [.error (noUpstreamReword cur)]
          else .ok [.error m]
        | .error (.other m) => .error (.other m)

/-- Lines 172-189, the `push_with_upstream` branch. -/
def runPushUpstream (b : Backend) : Except GitErr (List Notification) :=
  (b.config1).bind fun _ =>
    (b.config2).bind fun _ =>
      (b.originRemote).bind fun _ =>
        (b.activeBranchName).bind fun cur =>
          match b.pushUpstreamCall cur with
          | .ok _ =>
            .ok [.result (.text ("推送成功，并已设置上游分支为 origin/".toList ++ cur))]
          | .error (.gitCommand m) => .ok [.error m]
          | .error (.other m) => .error (.other m)

/-- Lines 191-215, the `pull` branch: both options default to true; the
`prune` kwarg is only attached when truthy, which the backend receives as the
boolean flag. -/
def runPull (args : List Arg) (b : Backend) : Except GitErr (List Notification) :=
  (b.config1).bind fun _ =>
    (b.config2).bind fun _ =>
      (b.originRemote).bind fun _ =>
        (b.pullCall (pullRebaseArg args).truthy (pullPruneArg args).truthy).bind fun _ =>
          .ok [.result (.text "拉取成功".toList)]

/-- Lines 217-227, the `checkout` branch: the three-argument `-b` form
creates a tracking branch, otherwise a plain checkout of `args[0]`. -/
def runCheckout (args : List Arg) (b : Backend) : Except GitErr (List Notification) :=
  if args.length = 3 ∧ args.get? 0 = some (.s "-b".toList) then
    (getArg args 1).bind fun a1 =>
      (getArg args 2).bind fun a2 =>
        (b.checkoutNew a1.asStr a2.asStr).bind fun _ =>
          .ok [.result (.text ("创建并切换到新分支: ".toList ++ a1.asStr
            ++ " (跟踪 ".toList ++ a2.asStr ++ ")".toList))]
  else
    (getArg args 0).bind fun a =>
      (b.checkoutRef a.asStr).bind fun _ =>
        .ok [.result (.text ("切换到分支: ".toList ++ a.asStr))]

/-- Lines 229-232, the `create_branch` branch. -/
def runCreateBranch (args : List Arg) (b : Backend) : Except GitErr (List Notification) :=
  (getArg args 0).bind fun a =>
    (b.checkoutB a.asStr).bind fun _ =>
      .ok [.result (.text ("创建并切换到新分支: ".toList ++ a.asStr))]

/-- Lines 234-237, the `merge` branch. -/
def runMerge (args : List Arg) (b : Backend) : Except GitErr (List Notification) :=
  (getArg args 0).bind fun a =>
    (b.gitMerge a.asStr).bind fun _ =>
      .ok [.result (.text ("成功合并分支: ".toList ++ a.asStr))]

/-- Lines 239-242, the `cherry_pick` branch. -/
def runCherryPick (args : List Arg) (b : Backend) : Except GitErr (List Notification) :=
  (getArg args 0).bind fun a =>
    (b.cherryPickCall a.asStr).bind fun _ =>
      .ok [.result (.text ("成功cherry-pick提交: ".toList ++ a.asStr.take 7))]

/-- Lines 244-287, the `show_commit` branch: look up the commit, diff against
the first parent (or `commit.diff()` for a root commit), then build one
`FileInfo` per changed path via `buildFileInfo`. -/
def runShowCommit (args : List Arg) (b : Backend) : Except GitErr (List Notification) :=
  (getArg args 0).bind fun a =>
    (b.commitLookup a.asStr).bind fun c =>
      (b.commitDiff c.parents.head?).bind fun items =>
        .ok [.result (.commitDetail (commitInfoOf c) (items.map (buildFileInfo b c)))]

/-- Lines 289-292, the `diff` branch: emits the raw diff text. -/
def runDiff (args : List Arg) (b : Backend) : Except GitErr (List Notification) :=
  (getArg args 0).bind fun a =>
    (b.gitDiffHead a.asStr).bind fun t => .ok [.result (.text t)]

/-- Lines 294-297, the `checkout_file` branch. -/
def runCheckoutFile (args : List Arg) (b : Backend) : Except GitErr (List Notification) :=
  (getArg args 0).bind fun a =>
    (b.checkoutFileCall a.asStr).bind fun _ =>
      .ok [.result (.text ("已取消变更: ".toList ++ a.asStr))]

/-- Lines 299-303, the `add_remote` branch. -/
def runAddRemote (args : List Arg) (b : Backend) : Except GitErr (List Notification) :=
  (getArg args 0).bind fun n =>
    (getArg args 1).bind fun u =>
      (b.createRemote n.asStr u.asStr).bind fun _ =>
        .ok [.result (.text ("远程仓库 \x27".toList ++ n.asStr
          ++ "\x27 已添加，URL: ".toList ++ u.asStr))]

/-- Lines 305-313, the `delete_branch` branch: the force flag (defaulting to
false) selects `-D` over `-d`. -/
def runDeleteBranch (args : List Arg) (b : Backend) : Except GitErr (List Notification) :=
  (getArg args 0).bind fun n =>
    if ((args.get? 1).getD (.b false)).truthy then
      (b.branchDelete true n.asStr).bind fun _ =>
        .ok [.result (.text ("分支 \x27".toList ++ n.asStr ++ "\x27 已强制删除".toList))]
    else
      (b.branchDelete false n.asStr).bind fun _ =>
        .ok [.result (.text ("分支 \x27".toList ++ n.asStr ++ "\x27 已删除".toList))]

/-- The `try` body of `GitWorker.run`: open the repository, then dispatch on
the operation kind. -/
def runBody (op : OpKind) (args : List Arg) (b : Backend) :
    Except GitErr (List Notification) :=
  (b.repoOpen).bind fun _ =>
    match op with
    | .status => runStatus b
    | .log => runLog b
    | .branches => runBranches b
    | .add => runAdd b
    | .commit => runCommit args b
    | .push => runPush b
    | .pushWithUpstream => runPushUpstream b
    | .pull => runPull args b
    | .checkout => runCheckout args b
    | .createBranch => runCreateBranch args b
    | .merge => runMerge args b
    | .cherryPick => runCherryPick args b
    | .showCommit => runShowCommit args b
    | .diff => runDiff args b
    | .checkoutFile => runCheckoutFile args b
    | .addRemote => runAddRemote args b
    | .deleteBranch => runDeleteBranch args b

/-- `GitWorker.run`: the notifications one execution of the worker delivers —
the `try` body's emissions, or the single `error.emit(str(e))` of the outer
`except Exception` handler at lines 320-321. -/
def run (op : OpKind) (args : List Arg) (b : Backend) : List Notification :=
  match runBody op args b with
  | .ok ns => ns
  | .error e => [.error e.str]

/-- How many result notifications a delivery contains. -/
def numResults (ns : List Notification) : Nat :=
  ns.countP fun n => match n with | .result _ => true | .error _ => false

/-- How many failure notifications a delivery contains. -/
def numErrors (ns : List Notification) : Nat :=
  ns.countP fun n => match n with | .result _ => false | .error _ => true

/-! ## Duplicate-submission guard (`GitManager`, lines 579-1777)

The registry is `self.active_operations`, a set of plain tag strings with no
repository component (line 588). Each submission method below is embedded as
a step function returning the updated manager state and the worker request it
dispatches (`none` when the method returns without starting a worker).
Starting a worker is the only route to a backend call, so `none` means the
submission was rejected before any backend call. User dialog interactions are
parameters (already answered); UI widget updates are elided. -/

/-- The guard tag of both push variants (`"push"`). -/
def pushTag : List Char := "push".toList

/-- The guard tag of `pull`. -/
def pullTag : List Char := "pull".toList

/-- The guard tag of `commit`. -/
def commitTag : List Char := "commit".toList

/-- The guard tag of `refresh_status`. -/
def refreshStatusTag : List Char := "refresh_status".toList

/-- The guard tag of `show_commit_detail`. -/
def showCommitTag : List Char := "show_commit".toList

/-- The guard tag of `stage_all`. -/
def stageAllTag : List Char := "stage_all".toList

/-- The guard tag of `commit_and_push`. -/
def commitAndPushTag : List Char := "commit_and_push".toList

/-- The guard tag of branch switching (checked in `on_branch_activated`,
taken in `switch_branch`). -/
def switchBranchTag : List Char := "switch_branch".toList

/-- The guard tag of `create_branch`. -/
def createBranchTag : List Char := "create_branch".toList

/-- The guard tag of `merge_branch`. -/
def mergeBranchTag : List Char := "merge_branch".toList

/-- The guard tag of `cherry_pick_commit`. -/
def cherryPickTag : List Char := "cherry_pick".toList

/-- The manager state the guard logic reads and writes: the tag set
`active_operations` and `current_repo_path`. -/
structure ManagerState where
  active_operations : List (List Char)
  current_repo_path : Option (List Char)
deriving DecidableEq

/-- A worker the manager starts: `GitWorker(repo_path, operation, *args)`
(the repo path is passed through unchecked and may be Python `None`). -/
structure WorkerReq where
  repoPath : Option (List Char)
  op : OpKind
  args : List Arg
deriving DecidableEq

/-- `self.active_operations.add(tag)`. -/
def addActive (s : ManagerState) (tag : List Char) : ManagerState :=
  { s with active_operations :=
      if tag ∈ s.active_operations then s.active_operations
      else tag :: s.active_operations }

/-- `GitManager.on_repo_selected` as far as the guard state is concerned:
selecting a repository replaces `current_repo_path`. -/
def switchRepo (s : ManagerState) (p : List Char) : ManagerState :=
  { s with current_repo_path := some p }

/-- `GitManager.push` (lines 1534-1555): both push variants are guarded by
the single tag `"push"`; the guard consults only that tag, never the
repository. -/
def pushStep (s : ManagerState) (set_upstream : Bool) : ManagerState × Option WorkerReq :=
  if pushTag ∈ s.active_operations then (s, none)
  else
    match s.current_repo_path with
    | none => (s, none)
    | some repo =>
      (addActive s pushTag,
       some ⟨some repo, if set_upstream then .pushWithUpstream else .push, []⟩)

/-- `GitManager.pull` (lines 1509-1532): guarded by the tag `"pull"`; the
checkbox states travel as the two boolean arguments. -/
def pullStep (s : ManagerState) (rebase prune : Bool) : ManagerState × Option WorkerReq :=
  if pullTag ∈ s.active_operations then (s, none)
  else
    match s.current_repo_path with
    | none => (s, none)
    | some repo =>
      (addActive s pullTag, some ⟨some repo, .pull, [.b rebase, .b prune]⟩)

/-- `GitManager.commit` (lines 1449-1470): guarded by the tag `"commit"`; an
empty message is refused before the guard tag is taken. -/
def commitStep (s : ManagerState) (message : List Char) : ManagerState × Option WorkerReq :=
  if commitTag ∈ s.active_operations then (s, none)
  else if message.isEmpty then (s, none)
  else
    match s.current_repo_path with
    | none => (addActive s commitTag, none)
    | some repo =>
      (addActive s commitTag, some ⟨some repo, .commit, [.s message]⟩)

/-- `GitManager.stage_all` (lines 1293-1307): guarded by `"stage_all"`; the
tag is taken before `execute_git_task` checks for a selected repository. -/
def stageAllStep (s : ManagerState) : ManagerState × Option WorkerReq :=
  if stageAllTag ∈ s.active_operations then (s, none)
  else
    let s' := addActive s stageAllTag
    match s.current_repo_path with
    | none => (s', none)
    | some repo => (s', some ⟨some repo, .add, []⟩)

/-- `GitManager.commit_and_push` (lines 1472-1507): guarded by
`"commit_and_push"`; the first worker of the chain is the `add` operation,
dispatched through `execute_git_task` (which checks the repository). -/
def commitAndPushStep (s : ManagerState) : ManagerState × Option WorkerReq :=
  if commitAndPushTag ∈ s.active_operations then (s, none)
  else
    let s' := addActive s commitAndPushTag
    match s.current_repo_path with
    | none => (s', none)
    | some repo => (s', some ⟨some repo, .add, []⟩)

/-- `GitManager.on_branch_activated` + `switch_branch` (lines 1128-1214):
the tag `"switch_branch"` is checked before entering `switch_branch`, an
empty name returns early, then the tag is taken and the checkout worker is
started directly with `self.current_repo_path`, unchecked. `isRemote` is
whether the combo text carried the `remote: ` display prefix, and
`localBranches` is the local branch list read from the repository — the
remote case resolves through `resolveRemoteRef`. -/
def switchBranchStep (s : ManagerState) (branchName : List Char) (isRemote : Bool)
    (localBranches : List (List Char)) : ManagerState × Option WorkerReq :=
  if switchBranchTag ∈ s.active_operations then (s, none)
  else if branchName.isEmpty then (s, none)
  else
    let s' := addActive s switchBranchTag
    if isRemote then
      match resolveRemoteRef branchName localBranches with
      | .plain b => (s', some ⟨s.current_repo_path, .checkout, [.s b]⟩)
      | .createTracking b ref =>
        (s', some ⟨s.current_repo_path, .checkout, [.s ("-b".toList), .s b, .s ref]⟩)
    else (s', some ⟨s.current_repo_path, .checkout, [.s branchName]⟩)

/-- `GitManager.create_branch` (lines 1216-1236): guarded by
`"create_branch"`; an empty name is refused before the tag is taken. -/
def createBranchStep (s : ManagerState) (branchName : List Char) :
    ManagerState × Option WorkerReq :=
  if createBranchTag ∈ s.active_operations then (s, none)
  else if branchName.isEmpty then (s, none)
  else
    let s' := addActive s createBranchTag
    match s.current_repo_path with
    | none => (s', none)
    | some repo => (s', some ⟨some repo, .createBranch, [.s branchName]⟩)

/-- `GitManager.merge_branch` (lines 1238-1272): guarded by `"merge_branch"`
after refusing an empty selection or merging a branch into itself; declining
the confirmation dialog discards the freshly taken tag again, so the state
is restored and nothing is dispatched. -/
def mergeBranchStep (s : ManagerState) (branchName currentBranch : List Char)
    (confirmed : Bool) : ManagerState × Option WorkerReq :=
  if mergeBranchTag ∈ s.active_operations then (s, none)
  else if branchName.isEmpty then (s, none)
  else if branchName = currentBranch then (s, none)
  else if confirmed then
    let s' := addActive s mergeBranchTag
    match s.current_repo_path with
    | none => (s', none)
    | some repo => (s', some ⟨some repo, .merge, [.s branchName]⟩)
  else (s, none)

/-- `GitManager.cherry_pick_commit` (lines 1348-1402): guarded by
`"cherry_pick"`, then the repository check; `confirmed` models the user
having picked a target branch and confirmed the dialog, after which the tag
is taken and the worker dispatched. -/
def cherryPickStep (s : ManagerState) (fullHash : List Char) (confirmed : Bool) :
    ManagerState × Option WorkerReq :=
  if cherryPickTag ∈ s.active_operations then (s, none)
  else
    match s.current_repo_path with
    | none => (s, none)
    | some repo =>
      if confirmed then
        (addActive s cherryPickTag, some ⟨some repo, .cherryPick, [.s fullHash]⟩)
      else (s, none)

/-- `GitManager.cancel_file_changes` (lines 1656-1678): the state-mutating
checkout-file submission never consults or updates `active_operations` and
performs no repository check; once the confirmation dialog is accepted the
worker is started directly with `self.current_repo_path`. -/
def cancelFileChangesStep (s : ManagerState) (path : List Char) (confirmed : Bool) :
    ManagerState × Option WorkerReq :=
  if confirmed then (s, some ⟨s.current_repo_path, .checkoutFile, [.s path]⟩)
  else (s, none)

/-- `GitManager.delete_branch` (lines 1717-1777): never consults or updates
`active_operations`; after the user picks a branch and answers the dialogs
(`confirmed = false` models pressing Cancel) the worker is started. -/
def deleteBranchStep (s : ManagerState) (branchToDelete : List Char)
    (force confirmed : Bool) : ManagerState × Option WorkerReq :=
  match s.current_repo_path with
  | none => (s, none)
  | some repo =>
    if confirmed then
      (s, some ⟨some repo, .deleteBranch, [.s branchToDelete, .b force]⟩)
    else (s, none)

/-- `GitManager.refresh_status` (lines 1274-1291): the read-only status query
is guarded by the tag `"refresh_status"`; the tag is taken before
`execute_git_task` checks for a selected repository. -/
def refreshStatusStep (s : ManagerState) : ManagerState × Option WorkerReq :=
  if refreshStatusTag ∈ s.active_operations then (s, none)
  else
    let s' := addActive s refreshStatusTag
    match s.current_repo_path with
    | none => (s', none)
    | some repo => (s', some ⟨some repo, .status, []⟩)

/-- `GitManager.show_commit_detail` (lines 1404-1447): the read-only
show-commit query is guarded by the tag `"show_commit"`; the worker is
started directly with `self.current_repo_path`, unchecked. -/
def showCommitStep (s : ManagerState) (fullHash : List Char) :
    ManagerState × Option WorkerReq :=
  if showCommitTag ∈ s.active_operations then (s, none)
  else
    (addActive s showCommitTag,
     some ⟨s.current_repo_path, .showCommit, [.s fullHash]⟩)

/-- `GitManager.refresh_history` (lines 1309-1320): the log query has no
guard at all; it dispatches whenever a repository is selected. -/
def refreshHistoryStep (s : ManagerState) : ManagerState × Option WorkerReq :=
  match s.current_repo_path with
  | none => (s, none)
  | some repo => (s, some ⟨some repo, .log, []⟩)

/-- `GitManager.refresh_branches` (lines 1088-1126): the branches query has
no guard; it dispatches whenever a repository is selected. -/
def refreshBranchesStep (s : ManagerState) : ManagerState × Option WorkerReq :=
  match s.current_repo_path with
  | none => (s, none)
  | some repo => (s, some ⟨some repo, .branches, []⟩)

/-- `GitManager.show_file_diff` (lines 1557-1588): the diff query has no
guard and no repository check; the worker is started directly. -/
def showFileDiffStep (s : ManagerState) (path : List Char) :
    ManagerState × Option WorkerReq :=
  (s, some ⟨s.current_repo_path, .diff, [.s path]⟩)

/-- A manager state with no operation in flight and repository `A` selected. -/
def sInit : ManagerState := ⟨[], some ("A".toList)⟩

/-! ## Concrete witness data -/

/-- A commit with one parent, for exercising `show_commit`. -/
def cTest : CommitObj :=
  ⟨"abc1234def".toList, "msg".toList, "alice".toList, "2024-01-01 00:00".toList,
   ["p0hash".toList]⟩

/-- Two changed paths; the diff of the second will fail. -/
def itemsTest : List DiffItem :=
  [⟨"good.txt".toList, "good.txt".toList, "M".toList⟩,
   ⟨"bad.txt".toList, "bad.txt".toList, "M".toList⟩]

/-- A concrete backend in which every call succeeds except the per-path diff
of `bad.txt`. -/
def bTest : Backend where
  repoOpen := .ok ()
  gitStatus := .ok []
  commits := .ok []
  localBranches := .ok []
  activeBranchName := .ok ("main".toList)
  remoteRefs := .ok []
  gitAdd := .ok ()
  gitCommit := fun _ => .ok ()
  config1 := .ok ()
  config2 := .ok ()
  originRemote := .ok ()
  pushCall := .ok ()
  pushUpstreamCall := fun _ => .ok ()
  pullCall := fun _ _ => .ok ()
  checkoutNew := fun _ _ => .ok ()
  checkoutRef := fun _ => .ok ()
  checkoutB := fun _ => .ok ()
  gitMerge := fun _ => .ok ()
  cherryPickCall := fun _ => .ok ()
  commitLookup := fun _ => .ok cTest
  commitDiff := fun _ => .ok itemsTest
  gitDiffRange := fun _ _ p =>
    if p = "bad.txt".toList then .error (.other ("boom".toList))
    else .ok ("DIFFTEXT".toList)
  gitShow := fun _ => .ok ("FULLCONTENT".toList)
  gitDiffHead := fun _ => .ok []
  checkoutFileCall := fun _ => .ok ()
  createRemote := fun _ _ => .ok ()
  branchDelete := fun _ _ => .ok ()

/-! ## Helper lemmas -/

lemma okSingleton_bind {α : Type} {x : Except GitErr α}
    {f : α → Except GitErr (List Notification)}
    (hf : ∀ a ns, f a = .ok ns → ns.length = 1) :
    ∀ ns, x.bind f = .ok ns → ns.length = 1 := by
  intro ns h
  cases x with
  | error e => simp [Except.bind] at h
  | ok a => exact hf a ns (by simpa [Except.bind] using h)

lemma okSingleton_ok (n : Notification) :
    ∀ ns, (Except.ok [n] : Except GitErr (List Notification)) = .ok ns → ns.length = 1 := by
  intro ns h
  injection h with h
  subst h
  rfl

lemma okSingleton_error (e : GitErr) :
    ∀ ns, (Except.error e : Except GitErr (List Notification)) = .ok ns →
      ns.length = 1 := by
  intro ns h
  simp at h

lemma runStatus_singleton (b : Backend) :
    ∀ ns, runStatus b = .ok ns → ns.length = 1 := by
  unfold runStatus
  exact okSingleton_bind fun raw => okSingleton_ok _

lemma runLog_singleton (b : Backend) :
    ∀ ns, runLog b = .ok ns → ns.length = 1 := by
  unfold runLog
  exact okSingleton_bind fun cs => okSingleton_ok _

lemma runBranches_singleton (b : Backend) :
    ∀ ns, runBranches b = .ok ns → ns.length = 1 := by
  unfold runBranches
  exact okSingleton_bind fun locals => okSingleton_bind fun active => okSingleton_ok _

lemma runAdd_singleton (b : Backend) :
    ∀ ns, runAdd b = .ok ns → ns.length = 1 := by
  unfold runAdd
  exact okSingleton_bind fun _ => okSingleton_ok _

lemma runCommit_singleton (args : List Arg) (b : Backend) :
    ∀ ns, runCommit args b = .ok ns → ns.length = 1 := by
  unfold runCommit
  exact okSingleton_bind fun _ => okSingleton_ok _

lemma runPush_singleton (b : Backend) :
    ∀ ns, runPush b = .ok ns → ns.length = 1 := by
  unfold runPush
  apply okSingleton_bind; intro _
  apply okSingleton_bind; intro _
  apply okSingleton_bind; intro _
  intro ns h
  split at h
  · injection h with h
    subst h
    rfl
  · split at h
    · exact okSingleton_bind (fun cur => okSingleton_ok _) ns h
    · injection h with h
      subst h
      rfl
  · simp at h

lemma runPushUpstream_singleton (b : Backend) :
    ∀ ns, runPushUpstream b = .ok ns → ns.length = 1 := by
  unfold runPushUpstream
  apply okSingleton_bind; intro _
  apply okSingleton_bind; intro _
  apply okSingleton_bind; intro _
  apply okSingleton_bind; intro cur
  intro ns h
  split at h
  · injection h with h
    subst h
    rfl
  · injection h with h
    subst h
    rfl
  · simp at h

lemma runPull_singleton (args : List Arg) (b : Backend) :
    ∀ ns, runPull args b = .ok ns → ns.length = 1 := by
  unfold runPull
  exact okSingleton_bind fun _ => okSingleton_bind fun _ => okSingleton_bind fun _ =>
    okSingleton_bind fun _ => okSingleton_ok _

lemma runCheckout_singleton (args : List Arg) (b : Backend) :
    ∀ ns, runCheckout args b = .ok ns → ns.length = 1 := by
  unfold runCheckout
  by_cases h : args.length = 3 ∧ args.get? 0 = some (.s "-b".toList)
  · rw [if_pos h]
    exact okSingleton_bind fun a1 => okSingleton_bind fun a2 =>
      okSingleton_bind fun _ => okSingleton_ok _
  · rw [if_neg h]
    exact okSingleton_bind fun a => okSingleton_bind fun _ => okSingleton_ok _

lemma runCreateBranch_singleton (args : List Arg) (b : Backend) :
    ∀ ns, runCreateBranch args b = .ok ns → ns.length = 1 := by
  unfold runCreateBranch
  exact okSingleton_bind fun a => okSingleton_bind fun _ => okSingleton_ok _

lemma runMerge_singleton (args : List Arg) (b : Backend) :
    ∀ ns, runMerge args b = .ok ns → ns.length = 1 := by
  unfold runMerge
  exact okSingleton_bind fun a => okSingleton_bind fun _ => okSingleton_ok _

lemma runCherryPick_singleton (args : List Arg) (b : Backend) :
    ∀ ns, runCherryPick args b = .ok ns → ns.length = 1 := by
  unfold runCherryPick
  exact okSingleton_bind fun a => okSingleton_bind fun _ => okSingleton_ok _

lemma runShowCommit_singleton (args : List Arg) (b : Backend) :
    ∀ ns, runShowCommit args b = .ok ns → ns.length = 1 := by
  unfold runShowCommit
  exact okSingleton_bind fun a => okSingleton_bind fun c =>
    okSingleton_bind fun items => okSingleton_ok _

lemma runDiff_singleton (args : List Arg) (b : Backend) :
    ∀ ns, runDiff args b = .ok ns → ns.length = 1 := by
  unfold runDiff
  exact okSingleton_bind fun a => okSingleton_bind fun t => okSingleton_ok _

lemma runCheckoutFile_singleton (args : List Arg) (b : Backend) :
    ∀ ns, runCheckoutFile args b = .ok ns → ns.length = 1 := by
  unfold runCheckoutFile
  exact okSingleton_bind fun a => okSingleton_bind fun _ => okSingleton_ok _

lemma runAddRemote_singleton (args : List Arg) (b : Backend) :
    ∀ ns, runAddRemote args b = .ok ns → ns.length = 1 := by
  unfold runAddRemote
  exact okSingleton_bind fun n => okSingleton_bind fun u =>
    okSingleton_bind fun _ => okSingleton_ok _

lemma runDeleteBranch_singleton (args : List Arg) (b : Backend) :
    ∀ ns, runDeleteBranch args b = .ok ns → ns.length = 1 := by
  unfold runDeleteBranch
  apply okSingleton_bind; intro n
  by_cases h : ((args.get? 1).getD (.b false)).truthy = true
  · rw [if_pos h]
    exact okSingleton_bind fun _ => okSingleton_ok _
  · rw [if_neg h]
    exact okSingleton_bind fun _ => okSingleton_ok _

lemma runBody_singleton (op : OpKind) (args : List Arg) (b : Backend) :
    ∀ ns, runBody op args b = .ok ns → ns.length = 1 := by
  unfold runBody
  apply okSingleton_bind; intro _
  cases op
  case status => exact runStatus_singleton b
  case log => exact runLog_singleton b
  case branches => exact runBranches_singleton b
  case add => exact runAdd_singleton b
  case commit => exact runCommit_singleton args b
  case push => exact runPush_singleton b
  case pushWithUpstream => exact runPushUpstream_singleton b
  case pull => exact runPull_singleton args b
  case checkout => exact runCheckout_singleton args b
  case createBranch => exact runCreateBranch_singleton args b
  case merge => exact runMerge_singleton args b
  case cherryPick => exact runCherryPick_singleton args b
  case showCommit => exact runShowCommit_singleton args b
  case diff => exact runDiff_singleton args b
  case checkoutFile => exact runCheckoutFile_singleton args b
  case addRemote => exact runAddRemote_singleton args b
  case deleteBranch => exact runDeleteBranch_singleton args b

lemma counts_eq_length (ns : List Notification) :
    numResults ns + numErrors ns = ns.length := by
  induction ns with
  | nil => rfl
  | cons n t ih =>
    cases n <;> simp [numResults, numErrors, List.countP_cons] at ih ⊢ <;> omega

/-! ## Claim theorems -/

/-- C1: for every submitted operation request of a supported kind, a single
execution of the worker delivers exactly one terminal notification — one
result or one failure, never both, never neither, never more than once —
whatever the backend does. -/
theorem single_terminal_notification (op : OpKind) (args : List Arg) (b : Backend) :
    numResults (run op args b) + numErrors (run op args b) = 1 := by
  rw [counts_eq_length]
  unfold run
  cases h : runBody op args b with
  | ok ns => exact runBody_singleton op args b ns h
  | error e => rfl

/-- C4: raw failure messages are classified with fixed precedence — the
checkout-conflict condition first (and it wins even when the upstream phrase
is also present), then the `has no upstream branch` phrase regardless of any
other content of the message, then the generic failure category. -/
theorem error_classifier_precedence (msg : List Char) :
    (containsSub conflictPhraseA msg = true → containsSub conflictPhraseB msg = true →
      classify msg = .checkoutConflict)
  ∧ (containsSub conflictPhraseA msg = true → containsSub conflictPhraseB msg = true →
      containsSub upstreamPhrase msg = true → classify msg = .checkoutConflict)
  ∧ (¬(containsSub conflictPhraseA msg = true ∧ containsSub conflictPhraseB msg = true) →
      containsSub upstreamPhrase msg = true → classify msg = .noUpstreamBranch)
  ∧ (¬(containsSub conflictPhraseA msg = true ∧ containsSub conflictPhraseB msg = true) →
      containsSub upstreamPhrase msg = false → classify msg = .genericFailure) := by
  refine ⟨?_, ?_, ?_, ?_⟩
  · intro h1 h2
    simp [classify, h1, h2]
  · intro h1 h2 _
    simp [classify, h1, h2]
  · intro hn h3
    have hfalse : (containsSub conflictPhraseA msg && containsSub conflictPhraseB msg) = false := by
      cases hA : containsSub conflictPhraseA msg <;>
        cases hB : containsSub conflictPhraseB msg <;> simp_all
    simp [classify, hfalse, h3]
  · intro hn h3
    have hfalse : (containsSub conflictPhraseA msg && containsSub conflictPhraseB msg) = false := by
      cases hA : containsSub conflictPhraseA msg <;>
        cases hB : containsSub conflictPhraseB msg <;> simp_all
    simp [classify, hfalse, h3]

/-- Witness for C4: a message carrying both conflict phrases and the upstream
phrase is a checkout conflict; the upstream phrase surrounded by unrelated
text is a no-upstream failure; anything else is generic. -/
theorem error_classifier_witness :
    classify (conflictPhraseA ++ (' ' :: (conflictPhraseB ++ (' ' :: upstreamPhrase))))
      = .checkoutConflict
  ∧ classify ("fatal: branch ".toList ++ (upstreamPhrase ++ " for push".toList))
      = .noUpstreamBranch
  ∧ classify ("some other error".toList) = .genericFailure := by
  refine ⟨(error_classifier_precedence _).1 (by decide) (by decide),
          (error_classifier_precedence _).2.2.1 (by decide) (by decide),
          (error_classifier_precedence _).2.2.2 (by decide) (by decide)⟩

/-- C5: every non-blank porcelain status line parses to the path taken from
offset 3 and the category chosen by the code pair — lines starting `??` are
untracked, first character `A` staged, `M` modified, `D` deleted, anything
else unstaged. -/
theorem status_line_parsing (c : Char) (rest : List Char)
    (hnb : (c :: rest).any (fun ch => !ch.isWhitespace) = true) :
    (['?', '?'].isPrefixOf (c :: rest) = true →
      parseStatusLine (c :: rest) = some (.untracked, (c :: rest).drop 3, '➕'))
  ∧ (['?', '?'].isPrefixOf (c :: rest) = false →
      ((c = 'A' → parseStatusLine (c :: rest) = some (.staged, (c :: rest).drop 3, '✅'))
      ∧ (c = 'M' →
          parseStatusLine (c :: rest) = some (.modified, (c :: rest).drop 3, '📝'))
      ∧ (c = 'D' →
          parseStatusLine (c :: rest) = some (.deleted, (c :: rest).drop 3, '❌'))
      ∧ (c ≠ 'A' → c ≠ 'M' → c ≠ 'D' →
          parseStatusLine (c :: rest) = some (.unstaged, (c :: rest).drop 3, '📝')))) := by
  constructor
  · intro hp
    simp [parseStatusLine, hnb, hp]
  · intro hp
    refine ⟨?_, ?_, ?_, ?_⟩
    · intro hc
      subst hc
      simp [parseStatusLine, hnb, hp]
    · intro hc
      subst hc
      simp [parseStatusLine, hnb, hp]
    · intro hc
      subst hc
      simp [parseStatusLine, hnb, hp]
    · intro hA hM hD
      simp [parseStatusLine, hnb, hp, hA, hM, hD]

/-- Witness for C5: `"?? new.txt"` parses as untracked `new.txt`, and
`"M  src/a.py"` parses as modified `src/a.py`. -/
theorem status_line_parsing_witness :
    parseStatusLine ("?? new.txt".toList) = some (.untracked, "new.txt".toList, '➕')
  ∧ parseStatusLine ("M  src/a.py".toList)
      = some (.modified, "src/a.py".toList, '📝') := by
  constructor
  · have h := (status_line_parsing '?' ("? new.txt".toList) (by decide)).1 (by decide)
    exact h.trans (by decide)
  · have h := ((status_line_parsing 'M' ("  src/a.py".toList) (by decide)).2
      (by decide)).2.1 rfl
    exact h.trans (by decide)

/-- C8: the pull options are independent — the rebase flag is argument 0 and
the prune flag argument 1 — and each defaults to true when its argument is
not supplied. -/
theorem pull_option_defaults :
    (pullRebaseArg [] = .b true ∧ pullPruneArg [] = .b true)
  ∧ (∀ r p : Arg, pullRebaseArg [r, p] = r ∧ pullPruneArg [r, p] = p)
  ∧ (∀ r : Arg, pullRebaseArg [r] = r ∧ pullPruneArg [r] = .b true) := by
  exact ⟨⟨rfl, rfl⟩, fun r p => ⟨rfl, rfl⟩, fun r => ⟨rfl, rfl⟩⟩

/-- C9: a commit request submitted with an empty argument list does not fail
for lack of a message — it commits with the default message `Update` and
reports success. -/
theorem commit_default_message (b : Backend)
    (hopen : b.repoOpen = .ok ())
    (hcommit : b.gitCommit ("Update".toList) = .ok ()) :
    commitMessage [] = "Update".toList
  ∧ run .commit [] b = [.result (.text ("提交成功: Update".toList))] := by
  refine ⟨rfl, ?_⟩
  have hc : b.gitCommit ['U', 'p', 'd', 'a', 't', 'e'] = Except.ok () := hcommit
  simp [run, runBody, runCommit, commitMessage, hopen, hc, Except.bind]

/-- Witness for C9: the concrete backend commits with `Update` and succeeds. -/
theorem commit_default_witness :
    run .commit [] bTest = [.result (.text ("提交成功: Update".toList))] :=
  (commit_default_message bTest rfl rfl).2

lemma splitOnChar_ne_nil (sep : Char) (l : List Char) : splitOnChar sep l ≠ [] := by
  cases l with
  | nil => simp [splitOnChar]
  | cons c cs =>
    unfold splitOnChar
    by_cases h : c = sep
    · simp [h]
    · rw [if_neg h]
      cases hs : splitOnChar sep cs <;> simp

lemma joinChar_splitOnChar (sep : Char) (l : List Char) :
    joinChar sep (splitOnChar sep l) = l := by
  induction l with
  | nil => rfl
  | cons c cs ih =>
    unfold splitOnChar
    by_cases h : c = sep
    · rw [if_pos h]
      cases hs : splitOnChar sep cs with
      | nil => exact absurd hs (splitOnChar_ne_nil sep cs)
      | cons g gs =>
        rw [hs] at ih
        simp [joinChar, ih, h]
    · rw [if_neg h]
      cases hs : splitOnChar sep cs with
      | nil => exact absurd hs (splitOnChar_ne_nil sep cs)
      | cons g gs =>
        rw [hs] at ih
        cases gs with
        | nil => simpa [joinChar] using ih
        | cons g2 gs2 => simpa [joinChar] using ih

lemma splitOnChar_cons (sep c : Char) (cs : List Char) :
    splitOnChar sep (c :: cs) =
      if c = sep then [] :: splitOnChar sep cs
      else
        match splitOnChar sep cs with
        | [] => [[c]]
        | g :: gs => (c :: g) :: gs := by
  rw [splitOnChar]

lemma splitOnChar_append (sep : Char) (r p : List Char)
    (hr : r.any (fun c => c == sep) = false) :
    splitOnChar sep (r ++ sep :: p) = r :: splitOnChar sep p := by
  induction r with
  | nil => simp [splitOnChar]
  | cons c cs ih =>
    simp only [List.any_cons, Bool.or_eq_false_iff] at hr
    have hc : ¬c = sep := by simpa using hr.1
    show splitOnChar sep (c :: (cs ++ sep :: p)) = (c :: cs) :: splitOnChar sep p
    rw [splitOnChar_cons, if_neg hc, ih hr.2]

lemma stripRemote_append (r p : List Char) (hr : r.any (fun c => c == '/') = false) :
    stripRemote (r ++ '/' :: p) = p := by
  have hs : (r ++ '/' :: p).any (fun c => c == '/') = true := by
    simp [List.any_append]
  unfold stripRemote
  rw [if_pos hs, splitOnChar_append '/' r p hr, List.tail_cons]
  exact joinChar_splitOnChar '/' p

/-- C3: for a remote-tracking reference `remoteName/branchPath` (the remote
name itself containing no `/`), the resolver strips only the leading remote
segment; if a local branch with exactly the candidate name exists the action
is a plain checkout of it, otherwise a create-and-checkout of a new local
branch with that name tracking the full remote reference. -/
theorem branch_resolver (r p : List Char) (hr : r.any (fun c => c == '/') = false)
    (locals : List (List Char)) :
    (p ∈ locals → resolveRemoteRef (r ++ '/' :: p) locals = .plain p)
  ∧ (p ∉ locals →
      resolveRemoteRef (r ++ '/' :: p) locals = .createTracking p (r ++ '/' :: p)) := by
  unfold resolveRemoteRef
  rw [stripRemote_append r p hr]
  constructor
  · intro h
    rw [if_pos h]
  · intro h
    rw [if_neg h]

/-- Witness for C3: with local branches `["main"]`, reference
`origin/feature-x` resolves to create-and-track `feature-x`; with local
branches `["feature-x", "main"]` it resolves to a plain checkout of
`feature-x`. -/
theorem branch_resolver_witness :
    resolveRemoteRef ("origin/feature-x".toList) [("main".toList)]
      = .createTracking ("feature-x".toList) ("origin/feature-x".toList)
  ∧ resolveRemoteRef ("origin/feature-x".toList) [("feature-x".toList), ("main".toList)]
      = .plain ("feature-x".toList) := by
  constructor
  · have h := (branch_resolver ("origin".toList) ("feature-x".toList) (by decide)
      [("main".toList)]).2 (by decide)
    exact h
  · have h := (branch_resolver ("origin".toList) ("feature-x".toList) (by decide)
      [("feature-x".toList), ("main".toList)]).1 (by decide)
    exact h

lemma progressUpdate_eq (s : ThrottleState) (c : RawCall) :
    progressUpdate s c =
      if c.t - s.last_update > 1 / 2 ∨ c.msg ≠ [] then
        (⟨c.t⟩, some (progressEventOf c.cur c.total? c.msg))
      else (s, none) := rfl

lemma progressUpdate_silent {s : ThrottleState} {c : RawCall}
    (h : (progressUpdate s c).2 = none) : (progressUpdate s c).1 = s := by
  rw [progressUpdate_eq] at h ⊢
  by_cases hc : c.t - s.last_update > 1 / 2 ∨ c.msg ≠ []
  · rw [if_pos hc] at h
    simp at h
  · rw [if_neg hc]

lemma progressUpdate_emit_state {s : ThrottleState} {c : RawCall} {e : ProgressEvent}
    (h : (progressUpdate s c).2 = some e) : (progressUpdate s c).1 = ⟨c.t⟩ := by
  rw [progressUpdate_eq] at h ⊢
  by_cases hc : c.t - s.last_update > 1 / 2 ∨ c.msg ≠ []
  · rw [if_pos hc]
  · rw [if_neg hc] at h
    simp at h

lemma progressUpdate_nonmsg {s : ThrottleState} {c : RawCall} {e : ProgressEvent}
    (h : (progressUpdate s c).2 = some e) (hm : isMsgEvent e = false) :
    c.msg = [] ∧ c.t - s.last_update > 1 / 2 := by
  rw [progressUpdate_eq] at h
  by_cases hc : c.t - s.last_update > 1 / 2 ∨ c.msg ≠ []
  · rw [if_pos hc] at h
    simp at h
    by_cases hmsg : c.msg = []
    · refine ⟨hmsg, ?_⟩
      rcases hc with hgap | hne
      · exact hgap
      · exact absurd hmsg hne
    · exfalso
      rw [← h] at hm
      unfold progressEventOf at hm
      rw [if_pos hmsg] at hm
      simp [isMsgEvent] at hm
  · rw [if_neg hc] at h
    simp at h

lemma runThrottle_cons (s : ThrottleState) (c : RawCall) (cs : List RawCall) :
    runThrottle s (c :: cs) =
      match (progressUpdate s c).2 with
      | none => runThrottle (progressUpdate s c).1 cs
      | some e => ((runThrottle (progressUpdate s c).1 cs).1,
          (c.t, e) :: (runThrottle (progressUpdate s c).1 cs).2) := rfl

lemma runThrottle_spacing (cs : List RawCall) (s : ThrottleState) :
    (∀ q ∈ (runThrottle s cs).2.head?,
      isMsgEvent q.2 = false → q.1 - s.last_update > 1 / 2)
  ∧ (runThrottle s cs).2.Chain' fun a b => isMsgEvent b.2 = false → b.1 - a.1 > 1 / 2 := by
  induction cs generalizing s with
  | nil => simp [runThrottle]
  | cons c cs ih =>
    rw [runThrottle_cons]
    cases hu : (progressUpdate s c).2 with
    | none =>
      rw [progressUpdate_silent hu]
      exact ih s
    | some e =>
      rw [progressUpdate_emit_state hu]
      constructor
      · intro q hq hm
        simp only [List.head?_cons, Option.mem_def, Option.some.injEq] at hq
        subst hq
        exact (progressUpdate_nonmsg hu hm).2
      · rw [List.chain'_cons']
        constructor
        · intro q hq hm
          have h1 := (ih ⟨c.t⟩).1 q hq hm
          simpa using h1
        · exact (ih ⟨c.t⟩).2

/-- C6: (a) any two consecutive emitted events of which the later is
message-free are more than 500 ms apart — at most one message-free event per
window; (b) a callback carrying a non-empty message is emitted immediately
as that message, regardless of elapsed time; (c) an emitted message-free
event carries the percentage `current/total * 100` exactly when the total is
known and positive, and the generic in-progress marker otherwise; (d) a
message-free callback inside the window is dropped; and (e) of two
message-free callbacks 100 ms apart, only the first is emitted. -/
theorem progress_throttle (s : ThrottleState) (cs : List RawCall) (c : RawCall) :
    ((runThrottle s cs).2.Chain' fun a b =>
      isMsgEvent b.2 = false → b.1 - a.1 > 1 / 2)
  ∧ (c.msg ≠ [] → (progressUpdate s c).2 = some (.message c.msg))
  ∧ (c.msg = [] → c.t - s.last_update > 1 / 2 →
      (∀ m, c.total? = some m → 0 < m →
        (progressUpdate s c).2 = some (.percentage (c.cur / m * 100)))
      ∧ (c.total? = none → (progressUpdate s c).2 = some .generic)
      ∧ (∀ m, c.total? = some m → ¬0 < m → (progressUpdate s c).2 = some .generic))
  ∧ (c.msg = [] → ¬c.t - s.last_update > 1 / 2 → (progressUpdate s c).2 = none)
  ∧ (runThrottle ⟨0⟩ [⟨1, 5, some 10, []⟩, ⟨11 / 10, 6, some 10, []⟩]).2
      = [(1, .percentage 50)] := by
  have h1 : (progressUpdate (⟨0⟩ : ThrottleState) ⟨1, 5, some 10, []⟩).2
      = some (.percentage 50) := by
    norm_num [progressUpdate, progressEventOf]
  have h2 : (progressUpdate (⟨1⟩ : ThrottleState) ⟨11 / 10, 6, some 10, []⟩).2 = none := by
    norm_num [progressUpdate, progressEventOf]
  have h1s : (progressUpdate (⟨0⟩ : ThrottleState) ⟨1, 5, some 10, []⟩).1 = ⟨1⟩ := by
    norm_num [progressUpdate]
  have hconc : (runThrottle ⟨0⟩ [⟨1, 5, some 10, []⟩, ⟨11 / 10, 6, some 10, []⟩]).2
      = [(1, .percentage 50)] := by
    rw [runThrottle_cons, h1, h1s, runThrottle_cons, h2, progressUpdate_silent h2]
    rfl
  refine ⟨(runThrottle_spacing cs s).2, ?_, ?_, ?_, hconc⟩
  · intro hm
    rw [progressUpdate_eq, if_pos (Or.inr hm)]
    unfold progressEventOf
    rw [if_pos hm]
  · intro hm hgap
    refine ⟨?_, ?_, ?_⟩
    · intro m hsome hpos
      rw [progressUpdate_eq, if_pos (Or.inl hgap)]
      unfold progressEventOf
      rw [if_neg (by simp [hm]), hsome]
      simp [hpos]
    · intro hnone
      rw [progressUpdate_eq, if_pos (Or.inl hgap)]
      unfold progressEventOf
      rw [if_neg (by simp [hm]), hnone]
    · intro m hsome hpos
      rw [progressUpdate_eq, if_pos (Or.inl hgap)]
      unfold progressEventOf
      rw [if_neg (by simp [hm]), hsome]
      simp [hpos]
  · intro hm hgap
    rw [progressUpdate_eq, if_neg]
    rintro (h1 | h2)
    · exact hgap h1
    · exact h2 hm

/-- Witness for C6: a message event is emitted immediately even 100 ms into
the window; a message-free callback past the window carries the one-decimal
percentage `50.0`; a message-free callback 100 ms after the previous
emission is dropped. -/
theorem progress_throttle_witness :
    (progressUpdate ⟨0⟩ ⟨1 / 10, 0, none, ['x']⟩).2 = some (.message ['x'])
  ∧ (progressUpdate ⟨0⟩ ⟨1, 5, some 10, []⟩).2 = some (.percentage 50)
  ∧ (progressUpdate ⟨1⟩ ⟨11 / 10, 6, some 10, []⟩).2 = none := by
  refine ⟨?_, ?_, ?_⟩
  · exact (progress_throttle ⟨0⟩ [] ⟨1 / 10, 0, none, ['x']⟩).2.1 (by decide)
  · have h := ((progress_throttle ⟨0⟩ [] ⟨1, 5, some 10, []⟩).2.2.1 rfl
      (by show (1 : ℚ) - 0 > 1 / 2; norm_num)).1 10 rfl (by norm_num)
    have e : (5 : ℚ) / 10 * 100 = 50 := by norm_num
    rw [e] at h
    exact h
  · exact (progress_throttle ⟨1⟩ [] ⟨11 / 10, 6, some 10, []⟩).2.2.2.1 rfl
      (by show ¬(11 : ℚ) / 10 - 1 > 1 / 2; norm_num)

/-- C10: every emission — a message event included — resets the 500 ms
window to the emission time, a silent callback leaves the state untouched,
and a message-free callback arriving less than 500 ms after an emitted event
produces no emission. -/
theorem emission_resets_window (s : ThrottleState) (c c' : RawCall) (e : ProgressEvent)
    (h : (progressUpdate s c).2 = some e) (hmsg : c'.msg = [])
    (hlt : c'.t - c.t < 1 / 2) :
    (progressUpdate s c).1.last_update = c.t
  ∧ ((progressUpdate s c).2 = none → (progressUpdate s c).1 = s)
  ∧ (progressUpdate (progressUpdate s c).1 c').2 = none := by
  have hst := progressUpdate_emit_state h
  refine ⟨by rw [hst], fun hn => progressUpdate_silent hn, ?_⟩
  rw [hst, progressUpdate_eq, if_neg]
  rintro (h1 | h2)
  · simp only at h1
    linarith
  · exact h2 hmsg

/-- Witness for C10: a message event emitted at `t = 1` resets the window,
so a message-free callback at `t = 1.3` produces nothing. -/
theorem emission_resets_window_witness :
    (progressUpdate ⟨0⟩ ⟨1, 0, none, ['x']⟩).1.last_update = 1
  ∧ (progressUpdate (progressUpdate ⟨0⟩ ⟨1, 0, none, ['x']⟩).1
      ⟨13 / 10, 7, some 10, []⟩).2 = none := by
  have h := emission_resets_window ⟨0⟩ ⟨1, 0, none, ['x']⟩ ⟨13 / 10, 7, some 10, []⟩
    (.message ['x']) (by norm_num [progressUpdate, progressEventOf]) rfl
    (by show (13 : ℚ) / 10 - 1 < 1 / 2; norm_num)
  exact ⟨h.1, h.2.2⟩

/-- C7: a `show_commit` request produces one result whose entry list has one
entry per changed path. With at least one parent, an entry carries the
textual diff between the first parent and the commit for that path; for a
root commit it carries the complete content of the path at that commit; and
if computing one path's diff fails, that path's entry still appears with the
placeholder while the remaining entries and the overall result are still
produced. -/
theorem show_commit_behavior (b : Backend) (hsh : List Char) (c : CommitObj)
    (items : List DiffItem)
    (hopen : b.repoOpen = .ok ())
    (hc : b.commitLookup hsh = .ok c)
    (hd : b.commitDiff c.parents.head? = .ok items) :
    run .showCommit [.s hsh] b
      = [.result (.commitDetail (commitInfoOf c) (items.map (buildFileInfo b c)))]
  ∧ (items.map (buildFileInfo b c)).length = items.length
  ∧ (∀ d : DiffItem, ∀ par rest, c.parents = par :: rest →
      (∀ t, b.gitDiffRange par c.hexsha (pathOf d) = .ok t →
        buildFileInfo b c d = ⟨pathOf d, d.change_type, t⟩)
      ∧ (∀ e, b.gitDiffRange par c.hexsha (pathOf d) = .error e →
        buildFileInfo b c d = ⟨pathOf d, d.change_type, diffFailMsg e⟩))
  ∧ (∀ d : DiffItem, c.parents = [] →
      (∀ t, b.gitShow (c.hexsha ++ ':' :: pathOf d) = .ok t →
        buildFileInfo b c d = ⟨pathOf d, d.change_type, t⟩)
      ∧ (∀ e, b.gitShow (c.hexsha ++ ':' :: pathOf d) = .error e →
        buildFileInfo b c d = ⟨pathOf d, d.change_type, diffFailMsg e⟩)) := by
  refine ⟨?_, List.length_map _ _, ?_, ?_⟩
  · simp [run, runBody, runShowCommit, getArg, hopen, hc, hd, Except.bind, Arg.asStr]
  · intro d par rest hp
    constructor
    · intro t ht
      simp [buildFileInfo, hp, ht]
    · intro e he
      simp [buildFileInfo, hp, he]
  · intro d hp
    constructor
    · intro t ht
      simp [buildFileInfo, hp, ht]
    · intro e he
      simp [buildFileInfo, hp, he]

/-- Witness for C7: on the concrete backend the diff of `bad.txt` raises, yet
both entries appear — `good.txt` with its diff text and `bad.txt` with the
placeholder — inside the single result. -/
theorem show_commit_witness :
    run .showCommit [.s ("abc1234def".toList)] bTest
      = [.result (.commitDetail
          ⟨"abc1234".toList, "msg".toList, "alice".toList, "2024-01-01 00:00".toList,
            "abc1234def".toList⟩
          [⟨"good.txt".toList, "M".toList, "DIFFTEXT".toList⟩,
           ⟨"bad.txt".toList, "M".toList, "无法获取差异信息: boom".toList⟩])] := by
  have h := (show_commit_behavior bTest ("abc1234def".toList) cTest itemsTest
    rfl rfl rfl).1
  exact h.trans (by decide)

/-- C2 counterexample: (i) `status`, a read-only kind, does not bypass the
guard — a second status refresh while one is in flight is rejected; (ii) the
deduplication key has no repository component — a push in flight on
repository `A` rejects a push on repository `B`; (iii) `delete_branch`, a
state-mutating kind, is not deduplicated at all — a second submission while
the first is in flight is dispatched; (iv) the state-mutating
cancel-file-changes (`checkout_file`) submission is likewise not
deduplicated. -/
theorem dedup_counterexample :
    ((refreshStatusStep sInit).2 ≠ none
      ∧ (refreshStatusStep (refreshStatusStep sInit).1).2 = none)
  ∧ ((pushStep sInit false).2 ≠ none
      ∧ (pushStep (switchRepo (pushStep sInit false).1 ("B".toList)) false).2 = none)
  ∧ ((deleteBranchStep sInit ("dev".toList) false true).2 ≠ none
      ∧ (deleteBranchStep (deleteBranchStep sInit ("dev".toList) false true).1
          ("dev".toList) false true).2 ≠ none)
  ∧ ((cancelFileChangesStep sInit ("a.txt".toList) true).2 ≠ none
      ∧ (cancelFileChangesStep (cancelFileChangesStep sInit ("a.txt".toList) true).1
          ("a.txt".toList) true).2 ≠ none) := by
  decide

/-- C2 (amended): submissions are deduplicated by a per-UI-action tag alone,
with no repository component — a submission whose tag is in flight is
rejected synchronously, before any worker (and hence any backend call) is
started, even when it targets a different repository. The guarded mutating
submissions are push and push-with-upstream (sharing the tag `push`), pull,
commit, commit-and-push, stage-all, branch switching, branch creation,
merge and cherry-pick; the mutating `delete_branch` and cancel-file-changes
(`checkout_file`) submissions are not deduplicated at all. Of the read-only
kinds, log, branches and diff bypass deduplication while status and
show-commit are guarded by their own tags. -/
theorem dedup_amended (s : ManagerState) (su force rebase prune isRemote : Bool)
    (branch path message current fullHash : List Char) (locals : List (List Char)) :
    (pushTag ∈ s.active_operations → pushStep s su = (s, none))
  ∧ ((pushStep s su).2 ≠ none ↔
      (pushTag ∉ s.active_operations ∧ s.current_repo_path ≠ none))
  ∧ (pullTag ∈ s.active_operations → pullStep s rebase prune = (s, none))
  ∧ ((pullStep s rebase prune).2 ≠ none ↔
      (pullTag ∉ s.active_operations ∧ s.current_repo_path ≠ none))
  ∧ (commitTag ∈ s.active_operations → commitStep s message = (s, none))
  ∧ ((commitStep s message).2 ≠ none ↔
      (commitTag ∉ s.active_operations ∧ message.isEmpty = false
        ∧ s.current_repo_path ≠ none))
  ∧ (commitAndPushTag ∈ s.active_operations → commitAndPushStep s = (s, none))
  ∧ ((commitAndPushStep s).2 ≠ none ↔
      (commitAndPushTag ∉ s.active_operations ∧ s.current_repo_path ≠ none))
  ∧ (stageAllTag ∈ s.active_operations → stageAllStep s = (s, none))
  ∧ ((stageAllStep s).2 ≠ none ↔
      (stageAllTag ∉ s.active_operations ∧ s.current_repo_path ≠ none))
  ∧ (switchBranchTag ∈ s.active_operations →
      switchBranchStep s branch isRemote locals = (s, none))
  ∧ ((switchBranchStep s branch isRemote locals).2 ≠ none ↔
      (switchBranchTag ∉ s.active_operations ∧ branch.isEmpty = false))
  ∧ (createBranchTag ∈ s.active_operations → createBranchStep s branch = (s, none))
  ∧ ((createBranchStep s branch).2 ≠ none ↔
      (createBranchTag ∉ s.active_operations ∧ branch.isEmpty = false
        ∧ s.current_repo_path ≠ none))
  ∧ (mergeBranchTag ∈ s.active_operations →
      mergeBranchStep s branch current true = (s, none))
  ∧ ((mergeBranchStep s branch current true).2 ≠ none ↔
      (mergeBranchTag ∉ s.active_operations ∧ branch.isEmpty = false
        ∧ branch ≠ current ∧ s.current_repo_path ≠ none))
  ∧ (cherryPickTag ∈ s.active_operations → cherryPickStep s fullHash true = (s, none))
  ∧ ((cherryPickStep s fullHash true).2 ≠ none ↔
      (cherryPickTag ∉ s.active_operations ∧ s.current_repo_path ≠ none))
  ∧ ((deleteBranchStep s branch force true).2 ≠ none ↔ s.current_repo_path ≠ none)
  ∧ (deleteBranchStep s branch force true).1 = s
  ∧ (cancelFileChangesStep s path true).2 ≠ none
  ∧ (cancelFileChangesStep s path true).1 = s
  ∧ ((refreshStatusStep s).2 ≠ none ↔
      (refreshStatusTag ∉ s.active_operations ∧ s.current_repo_path ≠ none))
  ∧ ((showCommitStep s path).2 ≠ none ↔ showCommitTag ∉ s.active_operations)
  ∧ ((refreshHistoryStep s).2 ≠ none ↔ s.current_repo_path ≠ none)
  ∧ ((refreshBranchesStep s).2 ≠ none ↔ s.current_repo_path ≠ none)
  ∧ (showFileDiffStep s path).2 ≠ none := by
  refine ⟨?_, ?_, ?_, ?_, ?_, ?_, ?_, ?_, ?_, ?_, ?_, ?_, ?_, ?_, ?_, ?_, ?_, ?_, ?_,
    ?_, ?_, ?_, ?_, ?_, ?_, ?_, ?_⟩
  · intro hm
    unfold pushStep
    rw [if_pos hm]
  · unfold pushStep
    by_cases hm : pushTag ∈ s.active_operations
    · rw [if_pos hm]
      simp [hm]
    · rw [if_neg hm]
      cases hr : s.current_repo_path <;> simp [hm, hr]
  · intro hm
    unfold pullStep
    rw [if_pos hm]
  · unfold pullStep
    by_cases hm : pullTag ∈ s.active_operations
    · rw [if_pos hm]
      simp [hm]
    · rw [if_neg hm]
      cases hr : s.current_repo_path <;> simp [hm, hr]
  · intro hm
    unfold commitStep
    rw [if_pos hm]
  · unfold commitStep
    by_cases hm : commitTag ∈ s.active_operations
    · rw [if_pos hm]
      simp [hm]
    · rw [if_neg hm]
      cases he : message.isEmpty
      · rw [if_neg (by simp [he])]
        cases hr : s.current_repo_path <;> simp [hm, he, hr]
      · simp [hm, he]
  · intro hm
    unfold commitAndPushStep
    rw [if_pos hm]
  · unfold commitAndPushStep
    by_cases hm : commitAndPushTag ∈ s.active_operations
    · rw [if_pos hm]
      simp [hm]
    · rw [if_neg hm]
      cases hr : s.current_repo_path <;> simp [hm, hr]
  · intro hm
    unfold stageAllStep
    rw [if_pos hm]
  · unfold stageAllStep
    by_cases hm : stageAllTag ∈ s.active_operations
    · rw [if_pos hm]
      simp [hm]
    · rw [if_neg hm]
      cases hr : s.current_repo_path <;> simp [hm, hr]
  · intro hm
    unfold switchBranchStep
    rw [if_pos hm]
  · unfold switchBranchStep
    by_cases hm : switchBranchTag ∈ s.active_operations
    · rw [if_pos hm]
      simp [hm]
    · rw [if_neg hm]
      cases he : branch.isEmpty
      · rw [if_neg (by simp [he])]
        cases isRemote
        · simp [hm, he]
        · cases hres : resolveRemoteRef branch locals <;> simp [hm, he, hres]
      · simp [hm, he]
  · intro hm
    unfold createBranchStep
    rw [if_pos hm]
  · unfold createBranchStep
    by_cases hm : createBranchTag ∈ s.active_operations
    · rw [if_pos hm]
      simp [hm]
    · rw [if_neg hm]
      cases he : branch.isEmpty
      · rw [if_neg (by simp [he])]
        cases hr : s.current_repo_path <;> simp [hm, he, hr]
      · simp [hm, he]
  · intro hm
    unfold mergeBranchStep
    rw [if_pos hm]
  · unfold mergeBranchStep
    by_cases hm : mergeBranchTag ∈ s.active_operations
    · rw [if_pos hm]
      simp [hm]
    · rw [if_neg hm]
      cases he : branch.isEmpty
      · rw [if_neg (by simp [he])]
        by_cases heq : branch = current
        · rw [if_pos heq]
          simp [hm, he, heq]
        · rw [if_neg heq]
          cases hr : s.current_repo_path <;> simp [hm, he, heq, hr]
      · simp [hm, he]
  · intro hm
    unfold cherryPickStep
    rw [if_pos hm]
  · unfold cherryPickStep
    by_cases hm : cherryPickTag ∈ s.active_operations
    · rw [if_pos hm]
      simp [hm]
    · rw [if_neg hm]
      cases hr : s.current_repo_path <;> simp [hm, hr]
  · cases hr : s.current_repo_path <;> simp [deleteBranchStep, hr]
  · cases hr : s.current_repo_path <;> simp [deleteBranchStep, hr]
  · simp [cancelFileChangesStep]
  · simp [cancelFileChangesStep]
  · unfold refreshStatusStep
    by_cases hm : refreshStatusTag ∈ s.active_operations
    · rw [if_pos hm]
      simp [hm]
    · rw [if_neg hm]
      cases hr : s.current_repo_path <;> simp [hm, hr]
  · unfold showCommitStep
    by_cases hm : showCommitTag ∈ s.active_operations
    · rw [if_pos hm]
      simp [hm]
    · rw [if_neg hm]
      simp [hm]
  · cases hr : s.current_repo_path <;> simp [refreshHistoryStep, hr]
  · cases hr : s.current_repo_path <;> simp [refreshBranchesStep, hr]
  · simp [showFileDiffStep]

/-- Witness for the amended C2: with the push tag in flight a push submission
is rejected with the state unchanged; a cancel-file-changes submission
dispatches with no guard; a log refresh dispatches whenever a repository is
selected. -/
theorem dedup_amended_witness :
    pushStep ⟨[pushTag], some ("A".toList)⟩ false = (⟨[pushTag], some ("A".toList)⟩, none)
  ∧ (cancelFileChangesStep sInit ("a.txt".toList) true).2 ≠ none
  ∧ (refreshHistoryStep sInit).2 ≠ none := by
  obtain ⟨h1, -⟩ :=
    dedup_amended ⟨[pushTag], some ("A".toList)⟩ false false false false false
      [] [] [] [] [] []
  obtain ⟨-, -, -, -, -, -, -, -, -, -, -, -, -, -, -, -, -, -, -, -, h21, -, -, -,
      h25, -, -⟩ :=
    dedup_amended sInit false false false false false [] ("a.txt".toList) [] [] [] []
  exact ⟨h1 (by decide), h21, h25.mpr (by decide)⟩

end GitTool
